import Mathlib

/-!
Verification development for the go-code-healer background resilience
pipeline: the bounded event queue with oldest-drop overflow policy
(queue.go), the retry executor with exponential backoff (queue.go), the
circuit breaker state machine (queue.go), the per-event two-phase
worker pipeline (worker.go), configuration validation (healer.go), and
the AI provider fallback policy (ai/provider_manager.go).

Conventions of the shallow embedding:
* Go `time.Time` / `time.Duration` values are modelled as `Int`
  (nanoseconds); `float64` confidence scores and backoff factors are
  modelled as `ℚ`.
* Go errors are modelled by `GoError`: a message plus an optional
  wrapped cause (`fmt.Errorf` with `%w`).
* A Go buffered channel is modelled as a fixed-capacity FIFO list
  (`Chan`); non-blocking send/receive (`select` with `default`) are
  `Chan.trySend` / `Chan.tryRecv`.
* Effectful methods become explicit state passing; points where
  concurrent goroutines may interleave on a shared channel are
  modelled by explicit interference functions.
-/

namespace Healer

/-- A Go error value: a message, optionally wrapping a cause
(`fmt.Errorf` with a `%w` verb). -/
inductive GoError where
  | msg (s : String)
  | wrap (s : String) (cause : GoError)
deriving Repr, DecidableEq

/-- PanicEvent (internal/types, `type PanicEvent struct`): immutable
record of one captured panic.  Timestamps are nanoseconds as `Int`. -/
structure PanicEvent where
  ID : String
  Timestamp : Int
  Error : String
  StackTrace : String
  SourceFile : String
  LineNumber : Int
  Function : String
  ProcessedAt : Option Int
  Status : String
deriving Repr, DecidableEq

/-- Helper producing a fresh queued event with a given id (used for
concrete witnesses; mirrors the fields `NewPanicEvent` fills in). -/
def mkEvent (id : String) : PanicEvent :=
  { ID := id, Timestamp := 0, Error := "", StackTrace := "", SourceFile := ""
    LineNumber := 0, Function := "", ProcessedAt := none, Status := "queued" }

/-- A Go buffered channel of `PanicEvent` (`healer.errorQueue`,
created as `make(chan PanicEvent, config.MaxQueueSize)`): fixed
capacity and a FIFO buffer whose head is the oldest element. -/
structure Chan where
  cap : Nat
  buf : List PanicEvent
deriving Repr, DecidableEq

/-- Non-blocking channel send (`select { case ch <- e: ... default: }`):
succeeds exactly when the buffer is not full. -/
def Chan.trySend (c : Chan) (e : PanicEvent) : Option Chan :=
  if c.buf.length < c.cap then some { c with buf := c.buf ++ [e] } else none

/-- Non-blocking channel receive (`select { case e := <-ch: ... default: }`):
succeeds exactly when the buffer is non-empty, yielding the oldest element. -/
def Chan.tryRecv (c : Chan) : Option (PanicEvent × Chan) :=
  match c.buf with
  | [] => none
  | e :: rest => some (e, { c with buf := rest })

/-- QueueManager state (queue.go lines 11-16): the shared error queue
channel plus the dropped-event counter (`droppedCount int64`, guarded
by `qm.mu`). -/
structure QueueManager where
  chan : Chan
  droppedCount : Int
deriving Repr, DecidableEq

/-- QueueManager.handleQueueOverflow (queue.go lines 41-83) under
explicit interference: the mutex serializes concurrent overflow
handlers, but fast-path senders and worker receivers touch the channel
without holding it.  `f` is the net effect of concurrent channel users
between the oldest-drop receive and the subsequent send; `g` is their
net effect before the retry send in the empty-on-retry branch.  The
sequential (no interference) case is `f = g = id`. -/
def QueueManager.handleQueueOverflowI (qm : QueueManager) (newEvent : PanicEvent)
    (f g : Chan → Chan) : Bool × QueueManager :=
  match qm.chan.tryRecv with
  | some (_oldEvent, c1) =>
      let qm1 : QueueManager := { chan := f c1, droppedCount := qm.droppedCount + 1 }
      match qm1.chan.trySend newEvent with
      | some c2 => (true, { qm1 with chan := c2 })
      | none => (false, qm1)
  | none =>
      let c1 := g qm.chan
      match c1.trySend newEvent with
      | some c2 => (true, { qm with chan := c2 })
      | none => (false, { qm with chan := c1, droppedCount := qm.droppedCount + 1 })

/-- QueueManager.handleQueueOverflow (queue.go lines 41-83), single
caller with no concurrent interference on the channel. -/
def QueueManager.handleQueueOverflow (qm : QueueManager) (newEvent : PanicEvent) :
    Bool × QueueManager :=
  qm.handleQueueOverflowI newEvent id id

/-- QueueManager.EnqueueEvent (queue.go lines 27-38): fast-path
non-blocking send, falling back to the overflow handler. -/
def QueueManager.EnqueueEvent (qm : QueueManager) (event : PanicEvent) :
    Bool × QueueManager :=
  match qm.chan.trySend event with
  | some c => (true, { qm with chan := c })
  | none => qm.handleQueueOverflow event

/-- QueueManager.GetDroppedCount (queue.go lines 86-90). -/
def QueueManager.GetDroppedCount (qm : QueueManager) : Int :=
  qm.droppedCount

/-- Sequentially enqueue a list of events, collecting each call result. -/
def QueueManager.enqueueAll (qm : QueueManager) (events : List PanicEvent) :
    List Bool × QueueManager :=
  match events with
  | [] => ([], qm)
  | e :: rest =>
      let r1 := qm.EnqueueEvent e
      let r2 := r1.2.enqueueAll rest
      (r1.1 :: r2.1, r2.2)

/-- A queue manager for a freshly initialized healer: empty channel of
capacity `N`, zero dropped events. -/
def initialQM (N : Nat) : QueueManager :=
  { chan := { cap := N, buf := [] }, droppedCount := 0 }

theorem EnqueueEvent_not_full (cap : Nat) (buf : List PanicEvent) (dropped : Int)
    (e : PanicEvent) (h : buf.length < cap) :
    QueueManager.EnqueueEvent ⟨⟨cap, buf⟩, dropped⟩ e =
      (true, ⟨⟨cap, buf ++ [e]⟩, dropped⟩) := by
  simp [QueueManager.EnqueueEvent, Chan.trySend, h]

theorem EnqueueEvent_full (cap : Nat) (x : PanicEvent) (tl : List PanicEvent)
    (dropped : Int) (e : PanicEvent) (h : (x :: tl).length = cap) :
    QueueManager.EnqueueEvent ⟨⟨cap, x :: tl⟩, dropped⟩ e =
      (true, ⟨⟨cap, tl ++ [e]⟩, dropped + 1⟩) := by
  have h1 : ¬ (tl.length + 1 < cap) := by simp at h; omega
  have h2 : tl.length < cap := by simp at h; omega
  simp [QueueManager.EnqueueEvent, Chan.trySend, QueueManager.handleQueueOverflow,
    QueueManager.handleQueueOverflowI, Chan.tryRecv, h1, h2]

theorem enqueueAll_spec (events : List PanicEvent) :
    ∀ (cap : Nat) (buf : List PanicEvent) (dropped : Int), 1 ≤ cap → buf.length ≤ cap →
      (QueueManager.enqueueAll ⟨⟨cap, buf⟩, dropped⟩ events).1 =
        List.replicate events.length true ∧
      (QueueManager.enqueueAll ⟨⟨cap, buf⟩, dropped⟩ events).2.chan.cap = cap ∧
      (QueueManager.enqueueAll ⟨⟨cap, buf⟩, dropped⟩ events).2.chan.buf =
        (buf ++ events).drop (buf.length + events.length - cap) ∧
      (QueueManager.enqueueAll ⟨⟨cap, buf⟩, dropped⟩ events).2.droppedCount =
        dropped + ((buf.length + events.length - cap : Nat) : Int) := by
  induction events with
  | nil =>
      intro cap buf dropped h1 h2
      have hz : buf.length - cap = 0 := by omega
      simp [QueueManager.enqueueAll, hz]
  | cons e rest ih =>
      intro cap buf dropped h1 h2
      rcases lt_or_eq_of_le h2 with hlt | heq
      · rw [show QueueManager.enqueueAll ⟨⟨cap, buf⟩, dropped⟩ (e :: rest) =
            ((QueueManager.EnqueueEvent ⟨⟨cap, buf⟩, dropped⟩ e).1 ::
               ((QueueManager.EnqueueEvent ⟨⟨cap, buf⟩, dropped⟩ e).2.enqueueAll rest).1,
             ((QueueManager.EnqueueEvent ⟨⟨cap, buf⟩, dropped⟩ e).2.enqueueAll rest).2)
            from rfl]
        rw [EnqueueEvent_not_full cap buf dropped e hlt]
        have hlen1 : (buf ++ [e]).length ≤ cap := by simp; omega
        obtain ⟨ha, hb, hc, hd⟩ := ih cap (buf ++ [e]) dropped h1 hlen1
        have hi : (buf ++ [e]).length + rest.length - cap =
            buf.length + (e :: rest).length - cap := by
          simp only [List.length_append, List.length_cons, List.length_nil]
          omega
        refine ⟨by simp [ha, List.replicate_succ], by simpa using hb, ?_, ?_⟩
        · rw [hc, hi, List.append_assoc, List.singleton_append]
        · rw [hd, hi]
      · match buf, heq with
        | [], heq =>
          simp only [List.length_nil] at heq
          omega
        | x :: tl, heq =>
          rw [show QueueManager.enqueueAll ⟨⟨cap, x :: tl⟩, dropped⟩ (e :: rest) =
              ((QueueManager.EnqueueEvent ⟨⟨cap, x :: tl⟩, dropped⟩ e).1 ::
                 ((QueueManager.EnqueueEvent ⟨⟨cap, x :: tl⟩, dropped⟩ e).2.enqueueAll rest).1,
               ((QueueManager.EnqueueEvent ⟨⟨cap, x :: tl⟩, dropped⟩ e).2.enqueueAll rest).2)
              from rfl]
          rw [EnqueueEvent_full cap x tl dropped e heq]
          have htl : tl.length + 1 = cap := by simpa using heq
          have hlen1 : (tl ++ [e]).length ≤ cap := by simp; omega
          obtain ⟨ha, hb, hc, hd⟩ := ih cap (tl ++ [e]) (dropped + 1) h1 hlen1
          have hil : (tl ++ [e]).length + rest.length - cap = rest.length := by
            simp only [List.length_append, List.length_cons, List.length_nil]
            omega
          have hir : (x :: tl).length + (e :: rest).length - cap = rest.length + 1 := by
            simp only [List.length_cons]
            omega
          refine ⟨by simp [ha, List.replicate_succ], by simpa using hb, ?_, ?_⟩
          · rw [hc, hil, hir]
            simp [List.append_assoc, List.singleton_append, List.drop_succ_cons]
          · rw [hd, hil, hir]
            push_cast
            ring

/-- C1: for a bounded event queue of capacity N (N ≥ 1) starting empty,
sequentially enqueueing N+k events (k > 0) through
`QueueManager.EnqueueEvent` returns true on every call, leaves exactly
the N most recently enqueued events in FIFO order (the oldest k are
evicted in enqueue order), and leaves the dropped-event counter at k. -/
theorem EnqueueEvent_overflow_fifo (N k : Nat) (events : List PanicEvent)
    (hN : 1 ≤ N) (hk : 1 ≤ k) (hlen : events.length = N + k) :
    ((initialQM N).enqueueAll events).1 = List.replicate (N + k) true ∧
    ((initialQM N).enqueueAll events).2.chan.buf = events.drop k ∧
    ((initialQM N).enqueueAll events).2.chan.buf.length = N ∧
    ((initialQM N).enqueueAll events).2.GetDroppedCount = (k : Int) := by
  obtain ⟨ha, _hb, hc, hd⟩ := enqueueAll_spec events N [] 0 hN (by simp)
  have hidx : List.length ([] : List PanicEvent) + events.length - N = k := by
    simp only [List.length_nil, hlen]
    omega
  rw [show initialQM N = ⟨⟨N, []⟩, 0⟩ from rfl]
  refine ⟨by rw [ha, hlen], ?_, ?_, ?_⟩
  · rw [hc, hidx]
    simp
  · rw [hc, hidx]
    simp only [List.nil_append, List.length_drop]
    omega
  · simp only [QueueManager.GetDroppedCount]
    rw [hd, hidx]
    simp

/-- Witness for C1 at the concrete instance from the spec: capacity 2,
enqueue A, B, C; all three calls return true, the queue holds [B, C]
and the dropped count is 1. -/
theorem EnqueueEvent_overflow_fifo_witness :
    (1 ≤ 2 ∧ 1 ≤ 1 ∧ ([mkEvent "A", mkEvent "B", mkEvent "C"] : List PanicEvent).length = 2 + 1) ∧
    ((initialQM 2).enqueueAll [mkEvent "A", mkEvent "B", mkEvent "C"]).1 =
      List.replicate (2 + 1) true ∧
    ((initialQM 2).enqueueAll [mkEvent "A", mkEvent "B", mkEvent "C"]).2.chan.buf =
      [mkEvent "A", mkEvent "B", mkEvent "C"].drop 1 ∧
    ((initialQM 2).enqueueAll [mkEvent "A", mkEvent "B", mkEvent "C"]).2.chan.buf.length = 2 ∧
    ((initialQM 2).enqueueAll [mkEvent "A", mkEvent "B", mkEvent "C"]).2.GetDroppedCount =
      ((1 : Nat) : Int) :=
  ⟨⟨by decide, by decide, by decide⟩,
   EnqueueEvent_overflow_fifo 2 1 [mkEvent "A", mkEvent "B", mkEvent "C"]
     (by decide) (by decide) (by decide)⟩

theorem overflow_fail_after_drop (qm : QueueManager) (e : PanicEvent) (f g : Chan → Chan)
    (hne : qm.chan.buf ≠ [])
    (hfull : ¬ ((f { cap := qm.chan.cap, buf := qm.chan.buf.tail }).buf.length <
        (f { cap := qm.chan.cap, buf := qm.chan.buf.tail }).cap)) :
    (qm.handleQueueOverflowI e f g).1 = false ∧
    (qm.handleQueueOverflowI e f g).2.droppedCount = qm.droppedCount + 1 := by
  obtain ⟨⟨cap, buf⟩, dropped⟩ := qm
  match buf, hne with
  | x :: tl, _ =>
    simp only [List.tail_cons] at hfull
    simp [QueueManager.handleQueueOverflowI, Chan.tryRecv, Chan.trySend, hfull]

theorem overflow_fail_on_retry (qm : QueueManager) (e : PanicEvent) (f g : Chan → Chan)
    (hemp : qm.chan.buf = [])
    (hfull : ¬ ((g qm.chan).buf.length < (g qm.chan).cap)) :
    (qm.handleQueueOverflowI e f g).1 = false ∧
    (qm.handleQueueOverflowI e f g).2.droppedCount = qm.droppedCount + 1 := by
  obtain ⟨⟨cap, buf⟩, dropped⟩ := qm
  subst hemp
  simp [QueueManager.handleQueueOverflowI, Chan.tryRecv, Chan.trySend, hfull]

theorem overflow_dropped_mono (qm : QueueManager) (e : PanicEvent) (f g : Chan → Chan) :
    qm.droppedCount ≤ (qm.handleQueueOverflowI e f g).2.droppedCount := by
  obtain ⟨⟨cap, buf⟩, dropped⟩ := qm
  cases buf with
  | nil =>
      simp only [QueueManager.handleQueueOverflowI, Chan.tryRecv]
      rcases hs : Chan.trySend (g ⟨cap, []⟩) e with _ | c2 <;> simp [hs]
  | cons x tl =>
      simp only [QueueManager.handleQueueOverflowI, Chan.tryRecv]
      rcases hs : Chan.trySend (f ⟨cap, tl⟩) e with _ | c2 <;> simp [hs]

theorem enqueue_dropped_mono (qm : QueueManager) (e : PanicEvent) :
    qm.droppedCount ≤ (qm.EnqueueEvent e).2.droppedCount := by
  rcases hs : qm.chan.trySend e with _ | c
  · simp only [QueueManager.EnqueueEvent, hs, QueueManager.handleQueueOverflow]
    exact overflow_dropped_mono qm e id id
  · simp [QueueManager.EnqueueEvent, hs]

/-- C10: in the overflow path, when the oldest event was removed but
the new event still cannot be appended, the call returns false and the
dropped counter rises by exactly 1 (only the removed oldest event is
counted); when the queue was found empty on retry and the append still
fails, the counter also rises by exactly 1 (for the lost new event);
and the dropped counter never decreases. -/
theorem handleQueueOverflow_drop_accounting :
    (∀ (qm : QueueManager) (e : PanicEvent) (f g : Chan → Chan),
        qm.chan.buf ≠ [] →
        ¬ ((f { cap := qm.chan.cap, buf := qm.chan.buf.tail }).buf.length <
            (f { cap := qm.chan.cap, buf := qm.chan.buf.tail }).cap) →
        (qm.handleQueueOverflowI e f g).1 = false ∧
        (qm.handleQueueOverflowI e f g).2.droppedCount = qm.droppedCount + 1) ∧
    (∀ (qm : QueueManager) (e : PanicEvent) (f g : Chan → Chan),
        qm.chan.buf = [] →
        ¬ ((g qm.chan).buf.length < (g qm.chan).cap) →
        (qm.handleQueueOverflowI e f g).1 = false ∧
        (qm.handleQueueOverflowI e f g).2.droppedCount = qm.droppedCount + 1) ∧
    (∀ (qm : QueueManager) (e : PanicEvent) (f g : Chan → Chan),
        qm.droppedCount ≤ (qm.handleQueueOverflowI e f g).2.droppedCount) ∧
    (∀ (qm : QueueManager) (e : PanicEvent),
        qm.droppedCount ≤ (qm.EnqueueEvent e).2.droppedCount) :=
  ⟨overflow_fail_after_drop, overflow_fail_on_retry, overflow_dropped_mono,
    enqueue_dropped_mono⟩

/-- A full capacity-1 queue manager holding one event, used as a
concrete witness state. -/
def qmOverflowWitness : QueueManager :=
  { chan := { cap := 1, buf := [mkEvent "A"] }, droppedCount := 0 }

/-- Interference in which concurrent fast-path senders refill the
queue to capacity between the overflow receive and the send. -/
def refillInterference : Chan → Chan :=
  fun c => { cap := c.cap, buf := [mkEvent "X"] }

/-- Witness for C10: on a full capacity-1 queue, with a concurrent
sender refilling the queue right after the oldest event is removed,
the overflow handler returns false and counts exactly one drop. -/
theorem handleQueueOverflow_drop_accounting_witness :
    (qmOverflowWitness.handleQueueOverflowI (mkEvent "B") refillInterference id).1 = false ∧
    (qmOverflowWitness.handleQueueOverflowI (mkEvent "B") refillInterference id).2.droppedCount =
      qmOverflowWitness.droppedCount + 1 :=
  handleQueueOverflow_drop_accounting.1 qmOverflowWitness (mkEvent "B") refillInterference id
    (by decide) (by decide)

/-- CircuitBreakerState (queue.go lines 168-175). -/
inductive CircuitBreakerState where
  | CircuitBreakerClosed
  | CircuitBreakerOpen
  | CircuitBreakerHalfOpen
deriving Repr, DecidableEq

/-- CircuitBreakerConfig (queue.go lines 191-196); durations are
nanoseconds as `Int`. -/
structure CircuitBreakerConfig where
  FailureThreshold : Int
  RecoveryTimeout : Int
  ResetTimeout : Int
deriving Repr, DecidableEq

/-- CircuitBreaker state (queue.go lines 207-215); `lastFailTime` is a
timestamp in nanoseconds. -/
structure CircuitBreaker where
  config : CircuitBreakerConfig
  state : CircuitBreakerState
  failures : Int
  lastFailTime : Int
deriving Repr, DecidableEq

/-- NewCircuitBreaker (queue.go lines 218-224): starts closed, with the
zero values for the failure counter and last failure time. -/
def NewCircuitBreaker (config : CircuitBreakerConfig) : CircuitBreaker :=
  { config := config, state := .CircuitBreakerClosed, failures := 0, lastFailTime := 0 }

/-- CircuitBreaker.canExecute (queue.go lines 238-267) at time `now`:
whether execution is allowed, together with the updated breaker.
While open, `time.Since(lastFailTime) > RecoveryTimeout` transitions to
half-open (the double-check under the write lock re-reads the same
state in this sequential model) and allows the call through. -/
def CircuitBreaker.canExecute (cb : CircuitBreaker) (now : Int) :
    Bool × CircuitBreaker :=
  match cb.state with
  | .CircuitBreakerClosed => (true, cb)
  | .CircuitBreakerOpen =>
      if cb.config.RecoveryTimeout < now - cb.lastFailTime then
        (true, { cb with state := .CircuitBreakerHalfOpen })
      else
        (false, cb)
  | .CircuitBreakerHalfOpen => (true, cb)

/-- CircuitBreaker.recordResult (queue.go lines 270-315) at time `now`;
`isErr` says whether the executed operation returned a non-nil error. -/
def CircuitBreaker.recordResult (cb : CircuitBreaker) (now : Int) (isErr : Bool) :
    CircuitBreaker :=
  if isErr then
    let cb1 := { cb with failures := cb.failures + 1, lastFailTime := now }
    if cb1.config.FailureThreshold ≤ cb1.failures then
      { cb1 with state := .CircuitBreakerOpen }
    else if cb1.state = .CircuitBreakerHalfOpen then
      { cb1 with state := .CircuitBreakerOpen }
    else
      cb1
  else
    if cb.state = .CircuitBreakerHalfOpen then
      { cb with state := .CircuitBreakerClosed, failures := 0 }
    else if cb.state = .CircuitBreakerClosed then
      { cb with failures := 0 }
    else
      cb

/-- CircuitBreaker.Execute (queue.go lines 227-235) at time `now`;
`fnErr` is the error the wrapped function would return if it were
invoked.  Result: returned error, updated breaker, and whether the
wrapped function was invoked. -/
def CircuitBreaker.Execute (cb : CircuitBreaker) (now : Int) (operation : String)
    (fnErr : Option GoError) : Option GoError × CircuitBreaker × Bool :=
  let r := cb.canExecute now
  if r.1 then
    (fnErr, r.2.recordResult now fnErr.isSome, true)
  else
    (some (GoError.msg ("circuit breaker is OPEN for " ++ operation)), r.2, false)

theorem newCB_closed (cfg : CircuitBreakerConfig) :
    (NewCircuitBreaker cfg).state = .CircuitBreakerClosed ∧
    (NewCircuitBreaker cfg).failures = 0 := by
  simp [NewCircuitBreaker]

theorem closed_failure_counts (cb : CircuitBreaker) (now : Int)
    (h : cb.state = .CircuitBreakerClosed) :
    (cb.recordResult now true).failures = cb.failures + 1 ∧
    (cb.config.FailureThreshold ≤ cb.failures + 1 →
      (cb.recordResult now true).state = .CircuitBreakerOpen) ∧
    (cb.failures + 1 < cb.config.FailureThreshold →
      (cb.recordResult now true).state = .CircuitBreakerClosed) := by
  obtain ⟨⟨th, rt, rs⟩, st, f, lf⟩ := cb
  simp only at h
  subst h
  refine ⟨?_, ?_, ?_⟩ <;> simp [CircuitBreaker.recordResult] <;> split_ifs <;>
    simp_all

theorem closed_success_resets (cb : CircuitBreaker) (now : Int)
    (h : cb.state = .CircuitBreakerClosed) :
    (cb.recordResult now false).failures = 0 ∧
    (cb.recordResult now false).state = .CircuitBreakerClosed := by
  obtain ⟨⟨th, rt, rs⟩, st, f, lf⟩ := cb
  simp only at h
  subst h
  simp [CircuitBreaker.recordResult]

theorem open_rejects_before_timeout (cb : CircuitBreaker) (now : Int)
    (operation : String) (fnErr : Option GoError)
    (h : cb.state = .CircuitBreakerOpen)
    (ht : now - cb.lastFailTime ≤ cb.config.RecoveryTimeout) :
    cb.Execute now operation fnErr =
      (some (GoError.msg ("circuit breaker is OPEN for " ++ operation)), cb, false) := by
  obtain ⟨⟨th, rt, rs⟩, st, f, lf⟩ := cb
  simp only at h ht
  subst h
  have hn : ¬ (rt < now - lf) := by omega
  simp [CircuitBreaker.Execute, CircuitBreaker.canExecute, hn]

theorem open_halfopen_after_timeout (cb : CircuitBreaker) (now : Int)
    (operation : String) (fnErr : Option GoError)
    (h : cb.state = .CircuitBreakerOpen)
    (ht : cb.config.RecoveryTimeout < now - cb.lastFailTime) :
    (cb.canExecute now).2.state = .CircuitBreakerHalfOpen ∧
    (cb.Execute now operation fnErr).2.2 = true := by
  obtain ⟨⟨th, rt, rs⟩, st, f, lf⟩ := cb
  simp only at h ht
  subst h
  simp [CircuitBreaker.Execute, CircuitBreaker.canExecute, ht]

theorem halfopen_success_closes (cb : CircuitBreaker) (now : Int)
    (h : cb.state = .CircuitBreakerHalfOpen) :
    (cb.recordResult now false).state = .CircuitBreakerClosed ∧
    (cb.recordResult now false).failures = 0 := by
  obtain ⟨⟨th, rt, rs⟩, st, f, lf⟩ := cb
  simp only at h
  subst h
  simp [CircuitBreaker.recordResult]

theorem halfopen_failure_opens (cb : CircuitBreaker) (now : Int)
    (h : cb.state = .CircuitBreakerHalfOpen) :
    (cb.recordResult now true).state = .CircuitBreakerOpen := by
  obtain ⟨⟨th, rt, rs⟩, st, f, lf⟩ := cb
  simp only at h
  subst h
  simp [CircuitBreaker.recordResult]

theorem canExecute_transitions (cb : CircuitBreaker) (now : Int) :
    (cb.canExecute now).2.state = cb.state ∨
    (cb.state = .CircuitBreakerOpen ∧
      (cb.canExecute now).2.state = .CircuitBreakerHalfOpen ∧
      cb.config.RecoveryTimeout < now - cb.lastFailTime) := by
  obtain ⟨⟨th, rt, rs⟩, st, f, lf⟩ := cb
  cases st with
  | CircuitBreakerClosed => simp [CircuitBreaker.canExecute]
  | CircuitBreakerHalfOpen => simp [CircuitBreaker.canExecute]
  | CircuitBreakerOpen =>
      by_cases hcond : rt < now - lf <;> simp [CircuitBreaker.canExecute, hcond]

theorem recordResult_transitions (cb : CircuitBreaker) (now : Int) (isErr : Bool) :
    (cb.recordResult now isErr).state = cb.state ∨
    (cb.state = .CircuitBreakerClosed ∧
      (cb.recordResult now isErr).state = .CircuitBreakerOpen ∧
      isErr = true ∧ cb.config.FailureThreshold ≤ cb.failures + 1) ∨
    (cb.state = .CircuitBreakerHalfOpen ∧
      (cb.recordResult now isErr).state = .CircuitBreakerOpen ∧ isErr = true) ∨
    (cb.state = .CircuitBreakerHalfOpen ∧
      (cb.recordResult now isErr).state = .CircuitBreakerClosed ∧ isErr = false) := by
  obtain ⟨⟨th, rt, rs⟩, st, f, lf⟩ := cb
  cases isErr <;> cases st <;> simp [CircuitBreaker.recordResult] <;>
    split_ifs <;> simp_all

/-- C2: the circuit breaker state machine.  It starts closed; from
closed, a recorded failure increments the failure counter and reaching
FailureThreshold transitions to open, while a success resets the
counter to 0; while open and before RecoveryTimeout has elapsed since
the last failure, Execute returns an error naming the operation
without invoking the wrapped function and leaves the breaker
unchanged; once RecoveryTimeout has elapsed the next call transitions
to half-open and is allowed through; a success in half-open closes the
breaker and resets the counter, a failure in half-open reopens it; and
the only primitive transitions are closed to open (threshold reached),
open to half-open (recovery timeout elapsed), half-open to closed
(success) and half-open to open (failure). -/
theorem circuitBreaker_lifecycle :
    (∀ cfg : CircuitBreakerConfig,
        (NewCircuitBreaker cfg).state = .CircuitBreakerClosed ∧
        (NewCircuitBreaker cfg).failures = 0) ∧
    (∀ (cb : CircuitBreaker) (now : Int), cb.state = .CircuitBreakerClosed →
        (cb.recordResult now true).failures = cb.failures + 1 ∧
        (cb.config.FailureThreshold ≤ cb.failures + 1 →
          (cb.recordResult now true).state = .CircuitBreakerOpen) ∧
        (cb.failures + 1 < cb.config.FailureThreshold →
          (cb.recordResult now true).state = .CircuitBreakerClosed)) ∧
    (∀ (cb : CircuitBreaker) (now : Int), cb.state = .CircuitBreakerClosed →
        (cb.recordResult now false).failures = 0 ∧
        (cb.recordResult now false).state = .CircuitBreakerClosed) ∧
    (∀ (cb : CircuitBreaker) (now : Int) (operation : String) (fnErr : Option GoError),
        cb.state = .CircuitBreakerOpen →
        now - cb.lastFailTime ≤ cb.config.RecoveryTimeout →
        cb.Execute now operation fnErr =
          (some (GoError.msg ("circuit breaker is OPEN for " ++ operation)), cb, false)) ∧
    (∀ (cb : CircuitBreaker) (now : Int) (operation : String) (fnErr : Option GoError),
        cb.state = .CircuitBreakerOpen →
        cb.config.RecoveryTimeout < now - cb.lastFailTime →
        (cb.canExecute now).2.state = .CircuitBreakerHalfOpen ∧
        (cb.Execute now operation fnErr).2.2 = true) ∧
    (∀ (cb : CircuitBreaker) (now : Int), cb.state = .CircuitBreakerHalfOpen →
        (cb.recordResult now false).state = .CircuitBreakerClosed ∧
        (cb.recordResult now false).failures = 0) ∧
    (∀ (cb : CircuitBreaker) (now : Int), cb.state = .CircuitBreakerHalfOpen →
        (cb.recordResult now true).state = .CircuitBreakerOpen) ∧
    (∀ (cb : CircuitBreaker) (now : Int),
        (cb.canExecute now).2.state = cb.state ∨
        (cb.state = .CircuitBreakerOpen ∧
          (cb.canExecute now).2.state = .CircuitBreakerHalfOpen ∧
          cb.config.RecoveryTimeout < now - cb.lastFailTime)) ∧
    (∀ (cb : CircuitBreaker) (now : Int) (isErr : Bool),
        (cb.recordResult now isErr).state = cb.state ∨
        (cb.state = .CircuitBreakerClosed ∧
          (cb.recordResult now isErr).state = .CircuitBreakerOpen ∧
          isErr = true ∧ cb.config.FailureThreshold ≤ cb.failures + 1) ∨
        (cb.state = .CircuitBreakerHalfOpen ∧
          (cb.recordResult now isErr).state = .CircuitBreakerOpen ∧ isErr = true) ∨
        (cb.state = .CircuitBreakerHalfOpen ∧
          (cb.recordResult now isErr).state = .CircuitBreakerClosed ∧ isErr = false)) :=
  ⟨newCB_closed, closed_failure_counts, closed_success_resets,
    open_rejects_before_timeout, open_halfopen_after_timeout, halfopen_success_closes,
    halfopen_failure_opens, canExecute_transitions, recordResult_transitions⟩

/-- A concrete open circuit breaker: threshold 5, recovery timeout 30
(ns), last failure at time 0. -/
def cbOpenWitness : CircuitBreaker :=
  { config := { FailureThreshold := 5, RecoveryTimeout := 30, ResetTimeout := 60 },
    state := .CircuitBreakerOpen, failures := 5, lastFailTime := 0 }

/-- Witness for C2 at a concrete input: an open breaker 10ns after its
last failure (recovery timeout 30ns) rejects with an error naming the
operation and does not invoke the wrapped function; and 40ns after the
last failure it transitions to half-open and lets the call through. -/
theorem circuitBreaker_lifecycle_witness :
    (cbOpenWitness.Execute 10 "event-processing" none =
      (some (GoError.msg ("circuit breaker is OPEN for " ++ "event-processing")),
        cbOpenWitness, false)) ∧
    ((cbOpenWitness.canExecute 40).2.state = .CircuitBreakerHalfOpen ∧
      (cbOpenWitness.Execute 40 "event-processing" none).2.2 = true) :=
  ⟨circuitBreaker_lifecycle.2.2.2.1 cbOpenWitness 10 "event-processing" none
      (by decide) (by decide),
    circuitBreaker_lifecycle.2.2.2.2.1 cbOpenWitness 40 "event-processing" none
      (by decide) (by decide)⟩

/-- RetryConfig (queue.go lines 92-98): delays are nanoseconds as
`Int`; the backoff factor (float64 in the source) is a rational. -/
structure RetryConfig where
  MaxAttempts : Int
  InitialDelay : Int
  MaxDelay : Int
  BackoffFactor : ℚ
deriving Repr, DecidableEq

/-- Go numeric conversion from float64 to time.Duration (int64):
truncation toward zero. -/
def goTruncToDuration (q : ℚ) : Int :=
  if 0 ≤ q then ⌊q⌋ else ⌈q⌉

/-- Next backoff delay (queue.go lines 157-161):
`delay = time.Duration(float64(delay) * BackoffFactor)`, capped at
`MaxDelay`. -/
def RetryConfig.nextDelay (cfg : RetryConfig) (delay : Int) : Int :=
  let d := goTruncToDuration ((delay : ℚ) * cfg.BackoffFactor)
  if cfg.MaxDelay < d then cfg.MaxDelay else d

/-- Message of the error returned after exhausting all attempts
(queue.go line 165, without the interpolated cause text, which is
attached structurally by `GoError.wrap`). -/
def retryFailMsg (operation : String) (maxAttempts : Int) : String :=
  operation ++ " failed after " ++ toString maxAttempts ++ " attempts, last error"

/-- Message of the error returned when the context is cancelled during
the backoff wait (queue.go line 155). -/
def retryCancelMsg (operation : String) : String :=
  operation ++ " cancelled"

/-- The final exhaustion error of ExecuteWithRetry: wraps the last
underlying error via `%w`; the `none` case arises only when the loop
body never ran (MaxAttempts below 1). -/
def mkRetryFinalErr (operation : String) (maxAttempts : Int)
    (lastErr : Option GoError) : GoError :=
  match lastErr with
  | some e => GoError.wrap (retryFailMsg operation maxAttempts) e
  | none => GoError.msg (retryFailMsg operation maxAttempts)

/-- The attempt loop of RetryManager.ExecuteWithRetry (queue.go lines
129-163).  `fn attempt` is the error of the attempt-th invocation of
the wrapped function (none = success); `ctxDone attempt` says whether
the governing context is already cancelled at the backoff wait
following attempt `attempt`; `fuel` is the number of remaining
attempts.  Returns the final error and the number of invocations
performed. -/
def retryLoop (cfg : RetryConfig) (ctxDone : Nat → Bool) (ctxErr : GoError)
    (operation : String) (fn : Nat → Option GoError) :
    Nat → Nat → Int → Option GoError → Option GoError × Nat
  | 0, _, _, lastErr => (some (mkRetryFinalErr operation cfg.MaxAttempts lastErr), 0)
  | fuel + 1, attempt, delay, _ =>
      match fn attempt with
      | none => (none, 1)
      | some err =>
          if fuel = 0 then
            (some (mkRetryFinalErr operation cfg.MaxAttempts (some err)), 1)
          else if ctxDone attempt then
            (some (GoError.wrap (retryCancelMsg operation) ctxErr), 1)
          else
            let r := retryLoop cfg ctxDone ctxErr operation fn fuel (attempt + 1)
              (cfg.nextDelay delay) (some err)
            (r.1, r.2 + 1)

/-- RetryManager.ExecuteWithRetry (queue.go lines 125-166): attempts
run from 1 up to MaxAttempts, starting from InitialDelay. -/
def RetryManager.ExecuteWithRetry (cfg : RetryConfig) (ctxDone : Nat → Bool)
    (ctxErr : GoError) (operation : String) (fn : Nat → Option GoError) :
    Option GoError × Nat :=
  retryLoop cfg ctxDone ctxErr operation fn cfg.MaxAttempts.toNat 1 cfg.InitialDelay none

/-- A context that is never cancelled. -/
def neverDone : Nat → Bool := fun _ => false

theorem retryLoop_count_le (cfg : RetryConfig) (ctxDone : Nat → Bool) (ctxErr : GoError)
    (operation : String) (fn : Nat → Option GoError) :
    ∀ (fuel attempt : Nat) (delay : Int) (lastErr : Option GoError),
      (retryLoop cfg ctxDone ctxErr operation fn fuel attempt delay lastErr).2 ≤ fuel := by
  intro fuel
  induction fuel with
  | zero =>
      intro attempt delay lastErr
      simp [retryLoop]
  | succ f ih =>
      intro attempt delay lastErr
      rcases hfa : fn attempt with _ | err
      · simp [retryLoop, hfa]
      · by_cases hf0 : f = 0
        · simp [retryLoop, hfa, hf0]
        · rcases hcd : ctxDone attempt with _ | _
          · have := ih (attempt + 1) (cfg.nextDelay delay) (some err)
            simp only [retryLoop, hfa, hf0, hcd, if_false, if_neg, Bool.false_eq_true]
            simp
            omega
          · simp [retryLoop, hfa, hf0, hcd]

theorem retryLoop_first_success (cfg : RetryConfig) (ctxErr : GoError)
    (operation : String) (fn : Nat → Option GoError) :
    ∀ (fuel attempt : Nat) (delay : Int) (lastErr : Option GoError) (k : Nat),
      attempt ≤ k → k < attempt + fuel → fn k = none →
      (∀ j, attempt ≤ j → j < k → fn j ≠ none) →
      retryLoop cfg neverDone ctxErr operation fn fuel attempt delay lastErr =
        (none, k - attempt + 1) := by
  intro fuel
  induction fuel with
  | zero =>
      intro attempt delay lastErr k h1 h2 _ _
      omega
  | succ f ih =>
      intro attempt delay lastErr k h1 h2 hk hprev
      by_cases hek : k = attempt
      · subst hek
        simp [retryLoop, hk]
      · have hlt : attempt < k := by omega
        have hfa : fn attempt ≠ none := hprev attempt le_rfl hlt
        rcases hfa2 : fn attempt with _ | err
        · exact absurd hfa2 hfa
        · have hf0 : f ≠ 0 := by omega
          have hrec := ih (attempt + 1) (cfg.nextDelay delay) (some err) k
            (by omega) (by omega) hk (fun j hj1 hj2 => hprev j (by omega) hj2)
          simp only [retryLoop, hfa2, hf0, if_false, neverDone, Bool.false_eq_true,
            if_neg, hrec]
          simp [hrec]
          omega

theorem retryLoop_exhaustion (cfg : RetryConfig) (ctxErr : GoError)
    (operation : String) (fn : Nat → Option GoError) :
    ∀ (fuel attempt : Nat) (delay : Int) (lastErr : Option GoError),
      1 ≤ fuel →
      (∀ j, attempt ≤ j → j < attempt + fuel → fn j ≠ none) →
      ∃ e, fn (attempt + fuel - 1) = some e ∧
        retryLoop cfg neverDone ctxErr operation fn fuel attempt delay lastErr =
          (some (mkRetryFinalErr operation cfg.MaxAttempts (some e)), fuel) := by
  intro fuel
  induction fuel with
  | zero =>
      intro attempt delay lastErr h1
      omega
  | succ f ih =>
      intro attempt delay lastErr _ hall
      rcases hfa : fn attempt with _ | err
      · exact absurd hfa (hall attempt le_rfl (by omega))
      · by_cases hf0 : f = 0
        · subst hf0
          refine ⟨err, by simpa using hfa, ?_⟩
          simp [retryLoop, hfa]
        · have hrec := ih (attempt + 1) (cfg.nextDelay delay) (some err)
            (by omega) (fun j hj1 hj2 => hall j (by omega) (by omega))
          obtain ⟨e, he1, he2⟩ := hrec
          refine ⟨e, ?_, ?_⟩
          · rw [show attempt + (f + 1) - 1 = attempt + 1 + f - 1 from by omega]
            exact he1
          · simp only [retryLoop, hfa, hf0, if_false, neverDone, Bool.false_eq_true,
              if_neg]
            simp [he2]

theorem retryLoop_cancelled (cfg : RetryConfig) (ctxDone : Nat → Bool)
    (ctxErr : GoError) (operation : String) (fn : Nat → Option GoError) :
    ∀ (fuel attempt : Nat) (delay : Int) (lastErr : Option GoError) (j : Nat),
      attempt ≤ j → j + 1 < attempt + fuel →
      (∀ i, attempt ≤ i → i ≤ j → fn i ≠ none) →
      (∀ i, attempt ≤ i → i < j → ctxDone i = false) →
      ctxDone j = true →
      retryLoop cfg ctxDone ctxErr operation fn fuel attempt delay lastErr =
        (some (GoError.wrap (retryCancelMsg operation) ctxErr), j - attempt + 1) := by
  intro fuel
  induction fuel with
  | zero =>
      intro attempt delay lastErr j h1 h2 _ _ _
      omega
  | succ f ih =>
      intro attempt delay lastErr j h1 h2 hfail hlive hdone
      rcases hfa : fn attempt with _ | err
      · exact absurd hfa (hfail attempt le_rfl h1)
      · have hf0 : f ≠ 0 := by omega
        by_cases hej : j = attempt
        · subst hej
          simp [retryLoop, hfa, hf0, hdone]
        · have hlt : attempt < j := by omega
          have hcd : ctxDone attempt = false := hlive attempt le_rfl hlt
          have hrec := ih (attempt + 1) (cfg.nextDelay delay) (some err) j
            (by omega) (by omega) (fun i hi1 hi2 => hfail i (by omega) hi2)
            (fun i hi1 hi2 => hlive i (by omega) hi2) hdone
          simp only [retryLoop, hfa, hf0, if_false, hcd, Bool.false_eq_true, if_neg]
          simp [hrec]
          omega

/-- C3: with a never-cancelled context and MaxAttempts ≥ 1,
ExecuteWithRetry invokes the wrapped function at most MaxAttempts
times; a first success on attempt k (k ≤ MaxAttempts) yields a nil
error after exactly k invocations; and failure on every attempt yields
exactly MaxAttempts invocations and an error naming the operation and
wrapping the last underlying error. -/
theorem ExecuteWithRetry_attempt_semantics (cfg : RetryConfig) (ctxErr : GoError)
    (operation : String) (fn : Nat → Option GoError) (hM : 1 ≤ cfg.MaxAttempts) :
    ((RetryManager.ExecuteWithRetry cfg neverDone ctxErr operation fn).2 ≤
      cfg.MaxAttempts.toNat) ∧
    (∀ k : Nat, 1 ≤ k → k ≤ cfg.MaxAttempts.toNat → fn k = none →
      (∀ j, 1 ≤ j → j < k → fn j ≠ none) →
      RetryManager.ExecuteWithRetry cfg neverDone ctxErr operation fn = (none, k)) ∧
    ((∀ j, 1 ≤ j → j ≤ cfg.MaxAttempts.toNat → fn j ≠ none) →
      ∃ e, fn cfg.MaxAttempts.toNat = some e ∧
        RetryManager.ExecuteWithRetry cfg neverDone ctxErr operation fn =
          (some (GoError.wrap (retryFailMsg operation cfg.MaxAttempts) e),
            cfg.MaxAttempts.toNat)) := by
  refine ⟨retryLoop_count_le cfg neverDone ctxErr operation fn _ 1 cfg.InitialDelay none,
    ?_, ?_⟩
  · intro k hk1 hk2 hk hprev
    have := retryLoop_first_success cfg ctxErr operation fn cfg.MaxAttempts.toNat 1
      cfg.InitialDelay none k hk1 (by omega) hk hprev
    rw [RetryManager.ExecuteWithRetry, this]
    congr 1
    omega
  · intro hall
    have hf1 : 1 ≤ cfg.MaxAttempts.toNat := by omega
    obtain ⟨e, he1, he2⟩ := retryLoop_exhaustion cfg ctxErr operation fn
      cfg.MaxAttempts.toNat 1 cfg.InitialDelay none hf1
      (fun j hj1 hj2 => hall j hj1 (by omega))
    refine ⟨e, ?_, ?_⟩
    · rw [show cfg.MaxAttempts.toNat = 1 + cfg.MaxAttempts.toNat - 1 from by omega]
      exact he1
    · rw [RetryManager.ExecuteWithRetry, he2]
      rw [show 1 + cfg.MaxAttempts.toNat - 1 = cfg.MaxAttempts.toNat from by omega] at he1
      simp [mkRetryFinalErr]

/-- Concrete retry configuration: 3 attempts, 1s initial delay, 30s
max delay, factor 2 (DefaultRetryConfig, queue.go lines 101-108). -/
def retryCfg3 : RetryConfig :=
  { MaxAttempts := 3, InitialDelay := 1000000000, MaxDelay := 30000000000,
    BackoffFactor := 2 }

/-- A wrapped function failing on attempts 1 and 2 and succeeding on
attempt 3. -/
def failTwiceFn : Nat → Option GoError :=
  fun n => if n ≤ 2 then some (GoError.msg "boom") else none

/-- Witness for C3 at the spec instance: MaxAttempts=3, failures on
attempts 1-2, success on attempt 3 gives a nil error and exactly 3
invocations. -/
theorem ExecuteWithRetry_attempt_semantics_witness :
    RetryManager.ExecuteWithRetry retryCfg3 neverDone (GoError.msg "context canceled")
      "process-event-1" failTwiceFn = (none, 3) :=
  (ExecuteWithRetry_attempt_semantics retryCfg3 (GoError.msg "context canceled")
      "process-event-1" failTwiceFn (by decide)).2.1 3 (by decide) (by decide)
    (by decide)
    (by
      intro j h1 h2
      interval_cases j <;> simp [failTwiceFn])

/-- C6: if the wrapped function has failed on attempts 1..j and the
governing context is observed cancelled during the backoff wait after
attempt j (j below MaxAttempts), ExecuteWithRetry returns an error
naming the operation that wraps the context cancellation error (not
the operation error), after exactly j invocations: cancellation during
backoff never causes a further invocation. -/
theorem ExecuteWithRetry_cancelled_during_backoff (cfg : RetryConfig)
    (ctxDone : Nat → Bool) (ctxErr : GoError) (operation : String)
    (fn : Nat → Option GoError) (j : Nat)
    (h1 : 1 ≤ j) (h2 : j < cfg.MaxAttempts.toNat)
    (hfail : ∀ i, 1 ≤ i → i ≤ j → fn i ≠ none)
    (hlive : ∀ i, 1 ≤ i → i < j → ctxDone i = false)
    (hdone : ctxDone j = true) :
    RetryManager.ExecuteWithRetry cfg ctxDone ctxErr operation fn =
      (some (GoError.wrap (retryCancelMsg operation) ctxErr), j) := by
  have := retryLoop_cancelled cfg ctxDone ctxErr operation fn cfg.MaxAttempts.toNat 1
    cfg.InitialDelay none j h1 (by omega) hfail hlive hdone
  rw [RetryManager.ExecuteWithRetry, this]
  congr 1
  omega

/-- A wrapped function that always fails. -/
def alwaysFailFn : Nat → Option GoError :=
  fun _ => some (GoError.msg "boom")

/-- A context cancelled at the first backoff wait. -/
def doneAtFirstWait : Nat → Bool :=
  fun n => n == 1

/-- Witness for C6: MaxAttempts=3, the operation fails on attempt 1
and the context is cancelled during the first backoff wait; the result
is the cancellation error after exactly one invocation. -/
theorem ExecuteWithRetry_cancelled_during_backoff_witness :
    RetryManager.ExecuteWithRetry retryCfg3 doneAtFirstWait (GoError.msg "context canceled")
      "process-event-1" alwaysFailFn =
      (some (GoError.wrap (retryCancelMsg "process-event-1")
        (GoError.msg "context canceled")), 1) :=
  ExecuteWithRetry_cancelled_during_backoff retryCfg3 doneAtFirstWait
    (GoError.msg "context canceled") "process-event-1" alwaysFailFn 1
    (by decide) (by decide)
    (by intro i hi1 hi2; simp [alwaysFailFn])
    (by intro i hi1 hi2; omega)
    (by decide)

/-- FixResponse (ai/types.go): the AI-generated fix proposal; the
float64 confidence score is modelled as a rational. -/
structure FixResponse where
  ProposedFix : String
  Explanation : String
  Confidence : ℚ
  IsValid : Bool
deriving Repr, DecidableEq

/-- BackgroundWorker.processEventWithGit (worker.go lines 187-266).
Environment inputs: whether a git client is configured, the analysis
result handed over from the AI phase, the per-invocation outcomes of
`gitClient.CreatePullRequest` (run through the retry manager), and the
outer context error observed after a retry failure.  Returns the
(possibly nil) error and the number of CreatePullRequest invocations. -/
def BackgroundWorker.processEventWithGit (rm : RetryConfig) (ctxDone : Nat → Bool)
    (ctxErr : GoError) (gitClientPresent : Bool) (eventID : String)
    (fixResponse : Option FixResponse) (createPR : Nat → Option GoError)
    (outerCtxErr : Option GoError) : Option GoError × Nat :=
  if gitClientPresent = false then (none, 0)
  else
    match fixResponse with
    | none => (none, 0)
    | some fr =>
        if fr.IsValid = false ∨ fr.ProposedFix = "" then (none, 0)
        else if fr.Confidence < (0.7 : ℚ) then (none, 0)
        else
          let r := RetryManager.ExecuteWithRetry rm ctxDone ctxErr
            ("git-pr-" ++ eventID) createPR
          match r.1 with
          | none => (none, r.2)
          | some e =>
              match outerCtxErr with
              | some ce => (some (GoError.wrap "Git processing cancelled" ce), r.2)
              | none => (some (GoError.wrap "Git PR creation failed" e), r.2)

/-- BackgroundWorker.processEventWithAI (worker.go lines 140-184).
`pmPresent` is whether a provider manager is configured; `genResult`
is the outcome of `providerManager.GenerateFixWithFallback` (which
returns a non-nil response exactly when it returns a nil error);
`aiCtxErr` is the outer context error observed after a generation
failure.  Returns the fix response and the (possibly nil) error. -/
def BackgroundWorker.processEventWithAI (pmPresent : Bool)
    (genResult : Except GoError FixResponse) (aiCtxErr : Option GoError) :
    Option FixResponse × Option GoError :=
  if pmPresent = false then (none, none)
  else
    match genResult with
    | .error e =>
        match aiCtxErr with
        | some ce => (none, some (GoError.wrap "AI processing cancelled" ce))
        | none => (none, some (GoError.wrap "AI fix generation failed" e))
    | .ok resp => (some resp, none)

/-- The wrapping applied by the phase loop of
processEventWithTimeoutManagement (worker.go lines 507-512); quotes
around the phase name are elided. -/
def phaseFailMsg (name : String) (deadlineExceeded : Bool) : String :=
  if deadlineExceeded then "phase " ++ name ++ " timed out"
  else "phase " ++ name ++ " failed"

/-- BackgroundWorker.processEventWithTimeoutManagement (worker.go
lines 468-520): runs the ai-processing phase, then the git-processing
phase, aborting at the first phase error with an error wrapped with
the phase name.  Returns the overall error, whether the git-processing
phase function was invoked, and the number of CreatePullRequest
invocations. -/
def BackgroundWorker.processEventWithTimeoutManagement (pmPresent : Bool)
    (genResult : Except GoError FixResponse) (aiCtxErr : Option GoError)
    (aiDeadlineExceeded : Bool) (rm : RetryConfig) (ctxDone : Nat → Bool)
    (ctxErr : GoError) (gitClientPresent : Bool) (eventID : String)
    (createPR : Nat → Option GoError) (gitOuterCtxErr : Option GoError)
    (gitDeadlineExceeded : Bool) : Option GoError × Bool × Nat :=
  let ai := BackgroundWorker.processEventWithAI pmPresent genResult aiCtxErr
  match ai.2 with
  | some e =>
      (some (GoError.wrap (phaseFailMsg "ai-processing" aiDeadlineExceeded) e), false, 0)
  | none =>
      let git := BackgroundWorker.processEventWithGit rm ctxDone ctxErr
        gitClientPresent eventID ai.1 createPR gitOuterCtxErr
      match git.1 with
      | some e =>
          (some (GoError.wrap (phaseFailMsg "git-processing" gitDeadlineExceeded) e),
            true, git.2)
      | none => (none, true, git.2)

/-- C4: the confidence gate of the remediate phase.  Any analysis
result whose confidence is below 0.7, or whose validity flag is false,
or whose proposed fix is empty, makes processEventWithGit return nil
without any CreatePullRequest invocation (a silent skip); conversely a
CreatePullRequest invocation can only happen for a non-empty, valid
result with confidence at least 0.7. -/
theorem processEventWithGit_confidence_gate :
    (∀ (rm : RetryConfig) (ctxDone : Nat → Bool) (ctxErr : GoError)
        (gitClientPresent : Bool) (eventID : String) (fr : FixResponse)
        (createPR : Nat → Option GoError) (outerCtxErr : Option GoError),
        (fr.Confidence < (0.7 : ℚ) ∨ fr.IsValid = false ∨ fr.ProposedFix = "") →
        BackgroundWorker.processEventWithGit rm ctxDone ctxErr gitClientPresent eventID
          (some fr) createPR outerCtxErr = (none, 0)) ∧
    (∀ (rm : RetryConfig) (ctxDone : Nat → Bool) (ctxErr : GoError)
        (gitClientPresent : Bool) (eventID : String) (fixResponse : Option FixResponse)
        (createPR : Nat → Option GoError) (outerCtxErr : Option GoError),
        0 < (BackgroundWorker.processEventWithGit rm ctxDone ctxErr gitClientPresent
          eventID fixResponse createPR outerCtxErr).2 →
        ∃ fr, fixResponse = some fr ∧ fr.ProposedFix ≠ "" ∧ fr.IsValid = true ∧
          (0.7 : ℚ) ≤ fr.Confidence) := by
  constructor
  · intro rm ctxDone ctxErr gp eventID fr createPR outerCtxErr hbad
    rcases hgp : gp with _ | _
    · simp [BackgroundWorker.processEventWithGit]
    · rcases hbad with hconf | hinv | hemp
      · by_cases hgate : fr.IsValid = false ∨ fr.ProposedFix = ""
        · simp [BackgroundWorker.processEventWithGit, hgate]
        · simp [BackgroundWorker.processEventWithGit, hgate, hconf]
      · simp [BackgroundWorker.processEventWithGit, hinv]
      · have hgate : fr.IsValid = false ∨ fr.ProposedFix = "" := Or.inr hemp
        simp [BackgroundWorker.processEventWithGit, hgate]
  · intro rm ctxDone ctxErr gp eventID fixResponse createPR outerCtxErr hpos
    rcases hgp : gp with _ | _
    · subst hgp
      simp [BackgroundWorker.processEventWithGit] at hpos
    · subst hgp
      rcases fixResponse with _ | fr
      · simp [BackgroundWorker.processEventWithGit] at hpos
      · refine ⟨fr, rfl, ?_⟩
        by_cases hgate : fr.IsValid = false ∨ fr.ProposedFix = ""
        · simp [BackgroundWorker.processEventWithGit, hgate] at hpos
        · by_cases hconf : fr.Confidence < (0.7 : ℚ)
          · simp [BackgroundWorker.processEventWithGit, hgate, hconf] at hpos
          · push_neg at hgate
            refine ⟨hgate.2, ?_, by linarith [not_lt.mp hconf]⟩
            simpa using hgate.1

/-- A valid high-confidence fix response. -/
def goodFix : FixResponse :=
  { ProposedFix := "fixed code", Explanation := "explanation", Confidence := 0.9,
    IsValid := true }

/-- A fix response below the 0.7 confidence threshold. -/
def lowConfidenceFix : FixResponse :=
  { ProposedFix := "fixed code", Explanation := "explanation", Confidence := 0.5,
    IsValid := true }

/-- Witness for C4: a valid non-empty proposal with confidence 0.5 is
skipped silently: nil error, zero CreatePullRequest invocations. -/
theorem processEventWithGit_confidence_gate_witness :
    BackgroundWorker.processEventWithGit retryCfg3 neverDone (GoError.msg "context canceled")
      true "e1" (some lowConfidenceFix) alwaysFailFn none = (none, 0) :=
  processEventWithGit_confidence_gate.1 retryCfg3 neverDone (GoError.msg "context canceled")
    true "e1" lowConfidenceFix alwaysFailFn none
    (Or.inl (by norm_num [lowConfidenceFix]))

/-- Counterexample to C5 as stated: with no provider manager
configured, the analyze phase yields a nil result with a nil error
(worker.go line 154), yet the git-processing phase function is still
invoked by the phase loop — it then skips internally without calling
CreatePullRequest. -/
theorem remediate_reached_with_nil_result_counterexample :
    BackgroundWorker.processEventWithAI false (.error (GoError.msg "unused")) none =
      (none, none) ∧
    (BackgroundWorker.processEventWithTimeoutManagement false
      (.error (GoError.msg "unused")) none false retryCfg3 neverDone
      (GoError.msg "context canceled") true "e1" alwaysFailFn none false).2.1 = true := by
  constructor <;> rfl

/-- C5 amended: an analyze-phase failure aborts the whole event with
an error wrapped with the phase name and the git-processing phase is
then not invoked; when the analyze phase does not fail, the
git-processing phase function is invoked even if the analysis result
is nil, but a nil analysis result never leads to a CreatePullRequest
invocation; any CreatePullRequest invocation requires a non-nil
analysis result. -/
theorem pipeline_phase_order :
    (∀ (pmPresent : Bool) (genResult : Except GoError FixResponse)
        (aiCtxErr : Option GoError) (aiDL : Bool) (rm : RetryConfig)
        (ctxDone : Nat → Bool) (ctxErr : GoError) (gp : Bool) (eventID : String)
        (createPR : Nat → Option GoError) (octx : Option GoError) (gitDL : Bool)
        (e : GoError),
        (BackgroundWorker.processEventWithAI pmPresent genResult aiCtxErr).2 = some e →
        BackgroundWorker.processEventWithTimeoutManagement pmPresent genResult aiCtxErr
          aiDL rm ctxDone ctxErr gp eventID createPR octx gitDL =
          (some (GoError.wrap (phaseFailMsg "ai-processing" aiDL) e), false, 0)) ∧
    (∀ (pmPresent : Bool) (genResult : Except GoError FixResponse)
        (aiCtxErr : Option GoError) (aiDL : Bool) (rm : RetryConfig)
        (ctxDone : Nat → Bool) (ctxErr : GoError) (gp : Bool) (eventID : String)
        (createPR : Nat → Option GoError) (octx : Option GoError) (gitDL : Bool),
        (BackgroundWorker.processEventWithAI pmPresent genResult aiCtxErr).1 = none →
        (BackgroundWorker.processEventWithTimeoutManagement pmPresent genResult aiCtxErr
          aiDL rm ctxDone ctxErr gp eventID createPR octx gitDL).2.2 = 0) ∧
    (∀ (pmPresent : Bool) (genResult : Except GoError FixResponse)
        (aiCtxErr : Option GoError) (aiDL : Bool) (rm : RetryConfig)
        (ctxDone : Nat → Bool) (ctxErr : GoError) (gp : Bool) (eventID : String)
        (createPR : Nat → Option GoError) (octx : Option GoError) (gitDL : Bool),
        0 < (BackgroundWorker.processEventWithTimeoutManagement pmPresent genResult
          aiCtxErr aiDL rm ctxDone ctxErr gp eventID createPR octx gitDL).2.2 →
        (BackgroundWorker.processEventWithAI pmPresent genResult aiCtxErr).1 ≠ none) := by
  have hgitnone : ∀ (rm : RetryConfig) (ctxDone : Nat → Bool) (ctxErr : GoError)
      (gp : Bool) (eventID : String) (createPR : Nat → Option GoError)
      (octx : Option GoError),
      BackgroundWorker.processEventWithGit rm ctxDone ctxErr gp eventID none createPR
        octx = (none, 0) := by
    intro rm ctxDone ctxErr gp eventID createPR octx
    rcases gp <;> simp [BackgroundWorker.processEventWithGit]
  refine ⟨?_, ?_, ?_⟩
  · intro pmPresent genResult aiCtxErr aiDL rm ctxDone ctxErr gp eventID createPR octx
      gitDL e hae
    simp [BackgroundWorker.processEventWithTimeoutManagement, hae]
  · intro pmPresent genResult aiCtxErr aiDL rm ctxDone ctxErr gp eventID createPR octx
      gitDL hnil
    rcases hae : (BackgroundWorker.processEventWithAI pmPresent genResult aiCtxErr).2
      with _ | e
    · simp [BackgroundWorker.processEventWithTimeoutManagement, hae, hnil, hgitnone]
    · simp [BackgroundWorker.processEventWithTimeoutManagement, hae]
  · intro pmPresent genResult aiCtxErr aiDL rm ctxDone ctxErr gp eventID createPR octx
      gitDL hpos hnil
    rcases hae : (BackgroundWorker.processEventWithAI pmPresent genResult aiCtxErr).2
      with _ | e
    · simp [BackgroundWorker.processEventWithTimeoutManagement, hae, hnil, hgitnone]
        at hpos
    · simp [BackgroundWorker.processEventWithTimeoutManagement, hae] at hpos

/-- Witness for C5 (amended): a failing analyze phase (provider
configured, generation error, no context cancellation) aborts the
event with the ai-processing phase wrap and the git phase is not
invoked. -/
theorem pipeline_phase_order_witness :
    BackgroundWorker.processEventWithTimeoutManagement true
      (.error (GoError.msg "boom")) none false retryCfg3 neverDone
      (GoError.msg "context canceled") true "e1" alwaysFailFn none false =
      (some (GoError.wrap (phaseFailMsg "ai-processing" false)
        (GoError.wrap "AI fix generation failed" (GoError.msg "boom"))), false, 0) :=
  pipeline_phase_order.1 true (.error (GoError.msg "boom")) none false retryCfg3
    neverDone (GoError.msg "context canceled") true "e1" alwaysFailFn none false
    (GoError.wrap "AI fix generation failed" (GoError.msg "boom")) (by rfl)

/-- Config (healer.go lines 13-31): the fields consulted by Validate. -/
structure Config where
  OpenAIAPIKey : String
  OpenAIModel : String
  GitHubToken : String
  RepoOwner : String
  RepoName : String
  Enabled : Bool
  MaxQueueSize : Int
  WorkerCount : Int
  RetryAttempts : Int
  LogLevel : String
deriving Repr, DecidableEq

/-- Required-field errors collected by Config.Validate when the healer
is enabled (healer.go lines 57-70). -/
def Config.requiredFieldErrors (c : Config) : List String :=
  if c.Enabled then
    (if c.OpenAIAPIKey = "" then ["OpenAI API key is required when healer is enabled"]
      else []) ++
    (if c.GitHubToken = "" then ["GitHub token is required when healer is enabled"]
      else []) ++
    (if c.RepoOwner = "" then ["repository owner is required when healer is enabled"]
      else []) ++
    (if c.RepoName = "" then ["repository name is required when healer is enabled"]
      else [])
  else []

/-- Numeric-field errors collected by Config.Validate (healer.go lines
72-81); the retry-attempts check is strictly `RetryAttempts < 0`. -/
def Config.numericFieldErrors (c : Config) : List String :=
  (if c.MaxQueueSize ≤ 0 then ["max queue size must be greater than 0"] else []) ++
  (if c.WorkerCount ≤ 0 then ["worker count must be greater than 0"] else []) ++
  (if c.RetryAttempts < 0 then ["retry attempts cannot be negative"] else [])

/-- Log-level errors collected by Config.Validate (healer.go lines
83-94). -/
def Config.logLevelErrors (c : Config) : List String :=
  if ["debug", "info", "warn", "error"].contains c.LogLevel then []
  else ["invalid log level " ++ c.LogLevel]

/-- Config.Validate (healer.go lines 53-100): returns a non-nil error
exactly when some check failed.  internal/config.go (lines 103-113)
performs the same three numeric checks. -/
def Config.Validate (c : Config) : Option String :=
  match c.requiredFieldErrors ++ c.numericFieldErrors ++ c.logLevelErrors with
  | [] => none
  | errs => some ("configuration validation failed: " ++ String.intercalate "; " errs)

/-- A disabled configuration with RetryAttempts = 0 and otherwise
valid values. -/
def zeroRetryConfig : Config :=
  { OpenAIAPIKey := "", OpenAIModel := "gpt-4", GitHubToken := "", RepoOwner := "",
    RepoName := "", Enabled := false, MaxQueueSize := 100, WorkerCount := 2,
    RetryAttempts := 0, LogLevel := "info" }

/-- Counterexample to C7 as stated: RetryAttempts = 0 satisfies
`RetryAttempts <= 0` yet Validate returns nil, because both Validate
implementations check `RetryAttempts < 0`, not `<= 0`. -/
theorem validate_accepts_zero_retries_counterexample :
    zeroRetryConfig.RetryAttempts ≤ 0 ∧ zeroRetryConfig.Validate = none := by
  constructor
  · norm_num [zeroRetryConfig]
  · rfl

/-- C7 amended: Validate returns a non-nil error whenever
MaxQueueSize ≤ 0, WorkerCount ≤ 0, or RetryAttempts < 0; and the
numeric checks pass exactly when MaxQueueSize > 0, WorkerCount > 0 and
RetryAttempts ≥ 0 (in particular RetryAttempts = 0 is accepted). -/
theorem validate_numeric_checks (c : Config) :
    ((c.MaxQueueSize ≤ 0 ∨ c.WorkerCount ≤ 0 ∨ c.RetryAttempts < 0) →
      c.Validate.isSome = true) ∧
    (c.numericFieldErrors = [] ↔
      (0 < c.MaxQueueSize ∧ 0 < c.WorkerCount ∧ 0 ≤ c.RetryAttempts)) := by
  constructor
  · intro hbad
    have hne : c.numericFieldErrors ≠ [] := by
      rcases hbad with h | h | h <;> simp [Config.numericFieldErrors, h]
    cases hl : c.requiredFieldErrors ++ c.numericFieldErrors ++ c.logLevelErrors with
    | nil =>
        rw [List.append_assoc] at hl
        rcases List.append_eq_nil.mp hl with ⟨_, h2⟩
        exact absurd (List.append_eq_nil.mp h2).1 hne
    | cons a rest => simp [Config.Validate, hl]
  · by_cases h1 : c.MaxQueueSize ≤ 0 <;> by_cases h2 : c.WorkerCount ≤ 0 <;>
      by_cases h3 : c.RetryAttempts < 0 <;>
      simp [Config.numericFieldErrors, h1, h2, h3] <;> omega

/-- A configuration with a zero queue capacity. -/
def zeroQueueConfig : Config :=
  { OpenAIAPIKey := "", OpenAIModel := "gpt-4", GitHubToken := "", RepoOwner := "",
    RepoName := "", Enabled := false, MaxQueueSize := 0, WorkerCount := 2,
    RetryAttempts := 3, LogLevel := "info" }

/-- Witness for C7 (amended): a configuration with MaxQueueSize = 0 is
rejected by Validate. -/
theorem validate_numeric_checks_witness :
    zeroQueueConfig.Validate.isSome = true :=
  (validate_numeric_checks zeroQueueConfig).1 (Or.inl (by norm_num [zeroQueueConfig]))

/-- Behaviour of one AI provider: for each retry attempt (0-based),
the pair returned by `provider.GenerateFix` — an optional response and
an optional error. -/
def ProviderBehavior : Type := Nat → Option FixResponse × Option GoError

/-- ProviderManager.isValidResponse (ai/provider_manager.go lines
273-294) on a non-nil response: non-empty proposed fix, confidence at
least 0.3, and the provider validity flag set. -/
def ProviderManager.isValidResponse (r : FixResponse) : Bool :=
  if r.ProposedFix = "" then false
  else if r.Confidence < (0.3 : ℚ) then false
  else if r.IsValid = false then false
  else true

/-- Loop state of GenerateFixWithFallback: best not-fully-valid
response so far, last error, and the index of the next backoff wait
(for the cancellation schedule). -/
structure FallbackState where
  best : Option FixResponse
  lastError : Option GoError
  step : Nat

/-- Outcome of iterating the attempt/provider loops. -/
inductive FallbackOutcome where
  | done (r : FixResponse)
  | cancelled
  | next (st : FallbackState)

/-- Best-response update (ai/provider_manager.go lines 148-151): keep
the new response only when it is strictly more confident. -/
def updBest (best : Option FixResponse) (r : FixResponse) : Option FixResponse :=
  match best with
  | none => some r
  | some b => if b.Confidence < r.Confidence then some r else some b

/-- Received response of one GenerateFix call: the response counts as
received exactly when the error is nil and the response non-nil
(ai/provider_manager.go line 138). -/
def receivedOpt (pr : Option FixResponse × Option GoError) : Option FixResponse :=
  match pr with
  | (some r, none) => some r
  | (_, _) => none

/-- One iteration of the attempt loop body (ai/provider_manager.go
lines 137-154), up to the backoff wait: a valid received response
returns early (left); otherwise on a received response the best
response is updated; in every non-returning case the last error is set
to the error of the call (nil for a received response). -/
def attemptStep (st : FallbackState) (pr : Option FixResponse × Option GoError) :
    FixResponse ⊕ FallbackState :=
  match receivedOpt pr with
  | some r =>
      if ProviderManager.isValidResponse r then Sum.inl r
      else Sum.inr { st with best := updBest st.best r, lastError := none }
  | none => Sum.inr { st with lastError := pr.2 }

/-- Attempt loop for one provider (ai/provider_manager.go lines
136-169); `attempts` is the list of remaining attempt indices
(initially `List.range maxRetries`).  After every non-final attempt
the loop waits, returning the context error if the context is
cancelled at that wait. -/
def providerAttempts (p : ProviderBehavior) (ctxDone : Nat → Bool) :
    List Nat → FallbackState → FallbackOutcome
  | [], st => .next st
  | a :: rest, st =>
      match attemptStep st (p a) with
      | Sum.inl r => .done r
      | Sum.inr st1 =>
          if rest.isEmpty then .next st1
          else if ctxDone st1.step then .cancelled
          else providerAttempts p ctxDone rest { st1 with step := st1.step + 1 }

/-- Provider loop of GenerateFixWithFallback (ai/provider_manager.go
lines 127-180): providers are tried in declaration order, each with
maxRetries attempts. -/
def tryProviders (maxRetries : Nat) (ctxDone : Nat → Bool) :
    List ProviderBehavior → FallbackState → FallbackOutcome
  | [], st => .next st
  | p :: ps, st =>
      match providerAttempts p ctxDone (List.range maxRetries) st with
      | .done r => .done r
      | .cancelled => .cancelled
      | .next st1 => tryProviders maxRetries ctxDone ps st1

/-- Final all-providers-failed error (ai/provider_manager.go line
191), wrapping the last error when present. -/
def mkAllFailedErr (lastError : Option GoError) : GoError :=
  match lastError with
  | some e => GoError.wrap "all AI providers failed, last error" e
  | none => GoError.msg "all AI providers failed, last error"

/-- ProviderManager.GenerateFixWithFallback (ai/provider_manager.go
lines 109-192): first fully valid response wins; otherwise the best
received response is returned with a nil error; otherwise an error
wrapping the last provider error. -/
def ProviderManager.GenerateFixWithFallback (maxRetries : Nat) (ctxDone : Nat → Bool)
    (ctxErr : GoError) (providers : List ProviderBehavior) :
    Option FixResponse × Option GoError :=
  match tryProviders maxRetries ctxDone providers
      { best := none, lastError := none, step := 0 } with
  | .done r => (some r, none)
  | .cancelled => (none, some ctxErr)
  | .next st =>
      match st.best with
      | some b => (some b, none)
      | none => (none, some (mkAllFailedErr st.lastError))

/-- Responses received from a provider over the given attempt indices,
in order. -/
def receivedOn (p : ProviderBehavior) : List Nat → List FixResponse
  | [] => []
  | a :: rest =>
      match receivedOpt (p a) with
      | some r => r :: receivedOn p rest
      | none => receivedOn p rest

/-- All responses received across the providers (maxRetries attempts
each), in attempt order. -/
def allReceived (maxRetries : Nat) : List ProviderBehavior → List FixResponse
  | [] => []
  | p :: ps => receivedOn p (List.range maxRetries) ++ allReceived maxRetries ps

theorem updBest_some (x r : FixResponse) :
    updBest (some x) r = some (if x.Confidence < r.Confidence then r else x) := by
  by_cases h : x.Confidence < r.Confidence <;> simp [updBest, h]

theorem foldl_updBest_some (l : List FixResponse) :
    ∀ x : FixResponse, ∃ y, l.foldl updBest (some x) = some y ∧
      (y = x ∨ y ∈ l) ∧ x.Confidence ≤ y.Confidence ∧
      ∀ r ∈ l, r.Confidence ≤ y.Confidence := by
  induction l with
  | nil =>
      intro x
      exact ⟨x, by simp⟩
  | cons r l ih =>
      intro x
      rw [List.foldl_cons, updBest_some]
      by_cases h : x.Confidence < r.Confidence
      · rw [if_pos h]
        obtain ⟨y, hy1, hy2, hy3, hy4⟩ := ih r
        refine ⟨y, hy1, ?_, le_of_lt (lt_of_lt_of_le h hy3), ?_⟩
        · rcases hy2 with rfl | hm
          · exact Or.inr (List.mem_cons_self _ _)
          · exact Or.inr (List.mem_cons_of_mem _ hm)
        · intro s hs
          rcases List.mem_cons.mp hs with rfl | hm
          · exact hy3
          · exact hy4 s hm
      · rw [if_neg h]
        obtain ⟨y, hy1, hy2, hy3, hy4⟩ := ih x
        refine ⟨y, hy1, ?_, hy3, ?_⟩
        · rcases hy2 with rfl | hm
          · exact Or.inl rfl
          · exact Or.inr (List.mem_cons_of_mem _ hm)
        · intro s hs
          rcases List.mem_cons.mp hs with rfl | hm
          · exact le_trans (not_lt.mp h) hy3
          · exact hy4 s hm

theorem foldl_updBest_none_eq (l : List FixResponse) :
    l.foldl updBest none = none ↔ l = [] := by
  cases l with
  | nil => simp
  | cons r l =>
      simp only [List.foldl_cons]
      rw [show updBest none r = some r from rfl]
      obtain ⟨y, hy1, _⟩ := foldl_updBest_some l r
      simp [hy1]

theorem attemptStep_inl (st : FallbackState) (pr : Option FixResponse × Option GoError)
    (r : FixResponse) (h : attemptStep st pr = Sum.inl r) :
    pr = (some r, none) ∧ ProviderManager.isValidResponse r = true := by
  rcases hro : receivedOpt pr with _ | x
  · simp [attemptStep, hro] at h
  · by_cases hv : ProviderManager.isValidResponse x = true
    · simp only [attemptStep, hro, hv, if_true, if_pos, Sum.inl.injEq] at h
      subst h
      refine ⟨?_, hv⟩
      rcases pr with ⟨_ | y, _ | e⟩ <;> simp [receivedOpt] at hro <;> simp [hro]
    · simp [attemptStep, hro, hv] at h

theorem attemptStep_inr (st : FallbackState) (pr : Option FixResponse × Option GoError)
    (st1 : FallbackState) (h : attemptStep st pr = Sum.inr st1) :
    st1.best = (match receivedOpt pr with
      | some r => updBest st.best r
      | none => st.best) ∧ st1.step = st.step := by
  rcases hro : receivedOpt pr with _ | x
  · simp only [attemptStep, hro, Sum.inr.injEq] at h
    subst h
    simp
  · by_cases hv : ProviderManager.isValidResponse x = true
    · simp [attemptStep, hro, hv] at h
    · simp only [attemptStep, hro, hv, Bool.false_eq_true, if_false, Sum.inr.injEq]
        at h
      subst h
      simp

theorem providerAttempts_ne_cancelled (p : ProviderBehavior) (ctxDone : Nat → Bool)
    (hnc : ∀ n, ctxDone n = false) :
    ∀ (attempts : List Nat) (st : FallbackState),
      providerAttempts p ctxDone attempts st ≠ .cancelled := by
  intro attempts
  induction attempts with
  | nil =>
      intro st
      simp [providerAttempts]
  | cons a rest ih =>
      intro st
      rcases hstep : attemptStep st (p a) with r | st1
      · simp [providerAttempts, hstep]
      · simp only [providerAttempts, hstep]
        by_cases hre : rest.isEmpty = true
        · rw [if_pos hre]
          simp
        · rw [if_neg hre, if_neg (by simp [hnc])]
          exact ih _

theorem providerAttempts_next_best (p : ProviderBehavior) (ctxDone : Nat → Bool) :
    ∀ (attempts : List Nat) (st st1 : FallbackState),
      providerAttempts p ctxDone attempts st = .next st1 →
      st1.best = (receivedOn p attempts).foldl updBest st.best := by
  intro attempts
  induction attempts with
  | nil =>
      intro st st1 h
      simp only [providerAttempts, FallbackOutcome.next.injEq] at h
      subst h
      simp [receivedOn]
  | cons a rest ih =>
      intro st st1 h
      rcases hstep : attemptStep st (p a) with r | st2
      · simp [providerAttempts, hstep] at h
      · obtain ⟨hb, _⟩ := attemptStep_inr st (p a) st2 hstep
        have hfold : (receivedOn p (a :: rest)).foldl updBest st.best =
            (receivedOn p rest).foldl updBest st2.best := by
          rcases hro : receivedOpt (p a) with _ | r2
          · rw [hro] at hb
            simp only [receivedOn, hro, hb]
          · rw [hro] at hb
            simp only [receivedOn, hro, List.foldl_cons, hb]
        rw [hfold]
        simp only [providerAttempts, hstep] at h
        by_cases hre : rest.isEmpty = true
        · rw [if_pos hre] at h
          have hrest : rest = [] := by
            cases rest with
            | nil => rfl
            | cons c cs => simp [List.isEmpty] at hre
          subst hrest
          simp only [FallbackOutcome.next.injEq] at h
          subst h
          simp [receivedOn]
        · rw [if_neg hre] at h
          by_cases hcd : ctxDone st2.step = true
          · rw [if_pos hcd] at h
            cases h
          · rw [if_neg hcd] at h
            have hres := ih _ _ h
            simpa using hres

theorem providerAttempts_no_valid_next (p : ProviderBehavior) (ctxDone : Nat → Bool)
    (hnc : ∀ n, ctxDone n = false) :
    ∀ (attempts : List Nat) (st : FallbackState),
      (∀ a ∈ attempts, ∀ r, p a = (some r, none) →
        ProviderManager.isValidResponse r = false) →
      ∃ st1, providerAttempts p ctxDone attempts st = .next st1 := by
  intro attempts
  induction attempts with
  | nil =>
      intro st _
      exact ⟨st, by simp [providerAttempts]⟩
  | cons a rest ih =>
      intro st hnv
      rcases hstep : attemptStep st (p a) with r | st1
      · obtain ⟨hpa, hv⟩ := attemptStep_inl st (p a) r hstep
        have hcon := hnv a (List.mem_cons_self _ _) r hpa
        rw [hv] at hcon
        cases hcon
      · by_cases hre : rest.isEmpty = true
        · refine ⟨st1, ?_⟩
          simp only [providerAttempts, hstep]
          rw [if_pos hre]
        · obtain ⟨st3, hst3⟩ :=
            ih { st1 with step := st1.step + 1 }
              (fun x hx => hnv x (List.mem_cons_of_mem _ hx))
          refine ⟨st3, ?_⟩
          simp only [providerAttempts, hstep]
          rw [if_neg hre, if_neg (by simp [hnc])]
          exact hst3

theorem tryProviders_ne_cancelled (maxRetries : Nat) (ctxDone : Nat → Bool)
    (hnc : ∀ n, ctxDone n = false) :
    ∀ (ps : List ProviderBehavior) (st : FallbackState),
      tryProviders maxRetries ctxDone ps st ≠ .cancelled := by
  intro ps
  induction ps with
  | nil =>
      intro st
      simp [tryProviders]
  | cons p ps ih =>
      intro st
      rw [tryProviders]
      rcases hpr : providerAttempts p ctxDone (List.range maxRetries) st
        with r | _ | st2
      · simp
      · exact absurd hpr (providerAttempts_ne_cancelled p ctxDone hnc _ _)
      · exact ih st2

theorem tryProviders_next_best (maxRetries : Nat) (ctxDone : Nat → Bool) :
    ∀ (ps : List ProviderBehavior) (st st1 : FallbackState),
      tryProviders maxRetries ctxDone ps st = .next st1 →
      st1.best = (allReceived maxRetries ps).foldl updBest st.best := by
  intro ps
  induction ps with
  | nil =>
      intro st st1 h
      simp only [tryProviders, FallbackOutcome.next.injEq] at h
      subst h
      simp [allReceived]
  | cons p ps ih =>
      intro st st1 h
      rw [tryProviders] at h
      rcases hpr : providerAttempts p ctxDone (List.range maxRetries) st
        with r | _ | st2 <;> rw [hpr] at h
      · simp at h
      · simp at h
      · have hh : tryProviders maxRetries ctxDone ps st2 = .next st1 := h
        have h1 := providerAttempts_next_best p ctxDone _ _ _ hpr
        have h2 := ih _ _ hh
        rw [h2, h1, allReceived, List.foldl_append]

theorem tryProviders_no_valid_next (maxRetries : Nat) (ctxDone : Nat → Bool)
    (hnc : ∀ n, ctxDone n = false) :
    ∀ (ps : List ProviderBehavior) (st : FallbackState),
      (∀ p ∈ ps, ∀ a ∈ List.range maxRetries, ∀ r, p a = (some r, none) →
        ProviderManager.isValidResponse r = false) →
      ∃ st1, tryProviders maxRetries ctxDone ps st = .next st1 := by
  intro ps
  induction ps with
  | nil =>
      intro st _
      exact ⟨st, by simp [tryProviders]⟩
  | cons p ps ih =>
      intro st hnv
      obtain ⟨st2, hst2⟩ := providerAttempts_no_valid_next p ctxDone hnc
        (List.range maxRetries) st
        (fun a ha => hnv p (List.mem_cons_self _ _) a ha)
      obtain ⟨st3, hst3⟩ := ih st2 (fun q hq => hnv q (List.mem_cons_of_mem _ hq))
      refine ⟨st3, ?_⟩
      rw [tryProviders, hst2]
      exact hst3

/-- C9: when every response received from the providers is not fully
valid (empty proposal, confidence below 0.3, or validity flag false)
but at least one response was received, GenerateFixWithFallback (with
a never-cancelled context) returns a received response of maximal
confidence together with a nil error; and it returns a non-nil error
only when no provider attempt yielded a response at all. -/
theorem GenerateFixWithFallback_best_effort (maxRetries : Nat) (ctxErr : GoError)
    (providers : List ProviderBehavior) :
    ((∀ p ∈ providers, ∀ a ∈ List.range maxRetries, ∀ r, p a = (some r, none) →
        ProviderManager.isValidResponse r = false) →
      allReceived maxRetries providers ≠ [] →
      ∃ b, ProviderManager.GenerateFixWithFallback maxRetries neverDone ctxErr
          providers = (some b, none) ∧
        b ∈ allReceived maxRetries providers ∧
        ∀ r ∈ allReceived maxRetries providers, r.Confidence ≤ b.Confidence) ∧
    (∀ e, (ProviderManager.GenerateFixWithFallback maxRetries neverDone ctxErr
        providers).2 = some e →
      allReceived maxRetries providers = []) := by
  have hnc : ∀ n, neverDone n = false := fun _ => rfl
  constructor
  · intro hnv hne
    obtain ⟨st1, hst1⟩ := tryProviders_no_valid_next maxRetries neverDone hnc providers
      { best := none, lastError := none, step := 0 } hnv
    have hbest : st1.best = (allReceived maxRetries providers).foldl updBest none :=
      tryProviders_next_best maxRetries neverDone providers _ _ hst1
    cases hrec : allReceived maxRetries providers with
    | nil => exact absurd hrec hne
    | cons r l =>
        rw [hrec, List.foldl_cons, show updBest none r = some r from rfl] at hbest
        obtain ⟨y, hy1, hy2, hy3, hy4⟩ := foldl_updBest_some l r
        refine ⟨y, ?_, ?_, ?_⟩
        · simp only [ProviderManager.GenerateFixWithFallback, hst1, hbest, hy1]
        · rcases hy2 with rfl | hm
          · exact List.mem_cons_self _ _
          · exact List.mem_cons_of_mem _ hm
        · intro s hs
          rcases List.mem_cons.mp hs with rfl | hm
          · exact hy3
          · exact hy4 s hm
  · intro e he
    rcases htp : tryProviders maxRetries neverDone providers
        { best := none, lastError := none, step := 0 } with r | _ | st1
    · simp only [ProviderManager.GenerateFixWithFallback, htp] at he
      cases he
    · exact absurd htp (tryProviders_ne_cancelled maxRetries neverDone hnc providers _)
    · have hbest : st1.best = (allReceived maxRetries providers).foldl updBest none :=
        tryProviders_next_best maxRetries neverDone providers _ _ htp
      simp only [ProviderManager.GenerateFixWithFallback, htp] at he
      rcases hb : st1.best with _ | b
      · rw [hb] at hbest
        exact (foldl_updBest_none_eq _).mp hbest.symm
      · rw [hb] at he
        simp at he

/-- A not-fully-valid response: non-empty proposal and valid flag, but
confidence 0.2 (below the 0.3 validity threshold). -/
def invalidFix : FixResponse :=
  { ProposedFix := "try this", Explanation := "", Confidence := 0.2, IsValid := true }

/-- A provider that always responds with `invalidFix` and no error. -/
def invalidProvider : ProviderBehavior := fun _ => (some invalidFix, none)

/-- Witness for C9: one provider, one attempt, always returning an
invalid (confidence 0.2) response: the fallback returns that response
with a nil error. -/
theorem GenerateFixWithFallback_best_effort_witness :
    ProviderManager.GenerateFixWithFallback 1 neverDone (GoError.msg "context canceled")
      [invalidProvider] = (some invalidFix, none) := by
  obtain ⟨b, hb1, hb2, hb3⟩ :=
    (GenerateFixWithFallback_best_effort 1 (GoError.msg "context canceled")
      [invalidProvider]).1
      (by
        intro p hp a ha r hr
        simp only [List.mem_singleton] at hp
        subst hp
        simp only [invalidProvider, Prod.mk.injEq, Option.some.injEq] at hr
        rw [← hr.1]
        norm_num [ProviderManager.isValidResponse, invalidFix])
      (by
        rw [show allReceived 1 [invalidProvider] = [invalidFix] from rfl]
        simp)
  have hmem : b = invalidFix := by
    have : allReceived 1 [invalidProvider] = [invalidFix] := rfl
    rw [this] at hb2
    simpa using hb2
  rw [hb1, hmem]

end Healer
